import Mathlib

/-!
Shallow embedding of the cropfresh order service core: the 7-stage order
tracking state machine (types/order-status.types.ts,
services/order-status.service.ts, repositories/order-status.repository.ts),
the match lifecycle (services/match.service.ts, repositories/match.repository.ts)
and the transaction aggregation layer (services/transaction.service.ts,
repositories/order-status.repository.ts).

Modelling conventions: timestamps are epoch milliseconds as `Int` (the source
uses JS `Date`); the relational store is a list of rows; a Prisma
`update where id` is a map over the list guarded by the key predicate; a
thrown error is an `Except.error` / `Option` error value.  JavaScript string
truthiness (`if (x)`) is modelled as presence of a non-empty string.
-/

/-- Decidable equality on Except results, so operation outcomes can be
compared and evaluated on concrete inputs. -/
instance {E A : Type} [DecidableEq E] [DecidableEq A] : DecidableEq (Except E A) := fun a b =>
  match a, b with
  | .ok x, .ok y =>
    if h : x = y then .isTrue (by rw [h]) else .isFalse (fun hc => by cases hc; exact h rfl)
  | .error x, .error y =>
    if h : x = y then .isTrue (by rw [h]) else .isFalse (fun hc => by cases hc; exact h rfl)
  | .ok _, .error _ => .isFalse (fun hc => by cases hc)
  | .error _, .ok _ => .isFalse (fun hc => by cases hc)

-- ============================================================
-- src/types/order-status.types.ts
-- ============================================================

/-- The 7-stage order tracking status enum (OrderTrackingStatus). -/
inductive OrderTrackingStatus where
  | LISTED
  | MATCHED
  | PICKUP_SCHEDULED
  | AT_DROP_POINT
  | IN_TRANSIT
  | DELIVERED
  | PAID
deriving DecidableEq, Fintype

/-- STATUS_STEP_MAP: step number (1-7) for progress calculation. -/
def STATUS_STEP_MAP : OrderTrackingStatus → Nat
  | .LISTED => 1
  | .MATCHED => 2
  | .PICKUP_SCHEDULED => 3
  | .AT_DROP_POINT => 4
  | .IN_TRANSIT => 5
  | .DELIVERED => 6
  | .PAID => 7

/-- VALID_TRANSITIONS: the transition table; only forward transitions,
PAID is terminal (empty successor list). -/
def VALID_TRANSITIONS : OrderTrackingStatus → List OrderTrackingStatus
  | .LISTED => [.MATCHED]
  | .MATCHED => [.PICKUP_SCHEDULED]
  | .PICKUP_SCHEDULED => [.AT_DROP_POINT]
  | .AT_DROP_POINT => [.IN_TRANSIT]
  | .IN_TRANSIT => [.DELIVERED]
  | .DELIVERED => [.PAID]
  | .PAID => []

/-- isValidTransition: membership in the allowed successor list. -/
def isValidTransition (currentStatus newStatus : OrderTrackingStatus) : Bool :=
  (VALID_TRANSITIONS currentStatus).contains newStatus

/-- getStatusStep: step number for a status (the source's `?? 1` fallback is
unreachable because the map is total). -/
def getStatusStep (status : OrderTrackingStatus) : Nat :=
  STATUS_STEP_MAP status

/-- TimelineEvent: one entry of the status_history JSONB column.  The ISO8601
timestamp string is modelled as the epoch-millisecond instant it denotes. -/
structure TimelineEvent where
  step : Nat
  status : OrderTrackingStatus
  label : String
  completed : Bool
  active : Bool
  timestamp : Option Int
  actor : Option String
  note : Option String
deriving DecidableEq

/-- HaulerInfo for IN_TRANSIT status. -/
structure HaulerInfo where
  id : String
  name : String
  phone : String
  vehicleType : Option String
  vehicleNumber : Option String
deriving DecidableEq

/-- UpdateOrderStatusDTO: input of the status transition operation. -/
structure UpdateOrderStatusDTO where
  orderId : String
  newStatus : OrderTrackingStatus
  actor : String
  note : Option String
  haulerInfo : Option HaulerInfo
  eta : Option Int
  delayMinutes : Option Int
  delayReason : Option String
  upiTransactionId : Option String
deriving DecidableEq

/-- Error codes of OrderStatusService (order-status.service.ts).  The bare
`throw new Error` in the repository's own not-found branch is modelled as
ORDER_NOT_FOUND as well; that branch is unreachable from the service, which
has just found the order in the same store. -/
inductive OrderStatusErrorCode where
  | ORDER_NOT_FOUND
  | INVALID_TRANSITION
  | ALREADY_IN_STATUS
  | UNAUTHORIZED
deriving DecidableEq

/-- One row of the `order` table, restricted to the columns the verified
operations read or write. -/
structure OrderRec where
  orderNumber : String
  farmerId : Int
  trackingStatus : OrderTrackingStatus
  statusHistory : List TimelineEvent
  eta : Option Int
  delayMinutes : Option Int
  delayReason : Option String
  haulerId : Option String
  haulerName : Option String
  haulerPhone : Option String
  haulerVehicle : Option String
  upiTransactionId : Option String
  paidAt : Option Int
  deletedAt : Option Int
  updatedAt : Int
deriving DecidableEq

-- ============================================================
-- src/repositories/order-status.repository.ts
-- ============================================================

namespace OrderStatusRepository

/-- getStepNumber: the repository's private copy of the step table
(order-status.repository.ts, `getStepNumber`). -/
def getStepNumber : OrderTrackingStatus → Nat
  | .LISTED => 1
  | .MATCHED => 2
  | .PICKUP_SCHEDULED => 3
  | .AT_DROP_POINT => 4
  | .IN_TRANSIT => 5
  | .DELIVERED => 6
  | .PAID => 7

/-- formatStatusLabel: the repository's private label table. -/
def formatStatusLabel : OrderTrackingStatus → String
  | .LISTED => "Listed"
  | .MATCHED => "Matched"
  | .PICKUP_SCHEDULED => "Pickup Scheduled"
  | .AT_DROP_POINT => "At Drop Point"
  | .IN_TRANSIT => "In Transit"
  | .DELIVERED => "Delivered"
  | .PAID => "Payment Received"

/-- The `findUnique where orderNumber` lookup shared by findByOrderNumber and
updateStatus (both select the row by its unique order number). -/
def findRecByOrderNumber (store : List OrderRec) (orderNumber : String) : Option OrderRec :=
  store.find? (fun o => decide (o.orderNumber = orderNumber))

/-- The timeline event pushed by updateStatus (order-status.repository.ts,
lines 247-256). -/
def newTimelineEvent (dto : UpdateOrderStatusDTO) (now : Int) : TimelineEvent :=
  { step := getStepNumber dto.newStatus
    status := dto.newStatus
    label := formatStatusLabel dto.newStatus
    completed := true
    active := true
    timestamp := some now
    actor := some dto.actor
    note := dto.note }

/-- The row produced by updateStatus from the current row: new tracking
status, history with all previous events deactivated plus the new event,
and the conditionally assigned optional columns.  JS truthiness guards
(`if (delayReason)`, `if (upiTransactionId)`) skip empty strings; the
`delayMinutes !== undefined` guard only requires presence; Prisma's
`@updatedAt` stamps `updatedAt`. -/
def updatedOrderRec (o : OrderRec) (dto : UpdateOrderStatusDTO) (now : Int) : OrderRec :=
  { o with
    trackingStatus := dto.newStatus
    statusHistory :=
      o.statusHistory.map (fun e => { e with active := false }) ++ [newTimelineEvent dto now]
    haulerId := match dto.haulerInfo with
      | some h => some h.id
      | none => o.haulerId
    haulerName := match dto.haulerInfo with
      | some h => some h.name
      | none => o.haulerName
    haulerPhone := match dto.haulerInfo with
      | some h => some h.phone
      | none => o.haulerPhone
    haulerVehicle := match dto.haulerInfo with
      | some h => match h.vehicleType with
        | some t => some (t ++ " " ++ (h.vehicleNumber.getD ""))
        | none => o.haulerVehicle
      | none => o.haulerVehicle
    eta := match dto.eta with
      | some e => some e
      | none => o.eta
    delayMinutes := match dto.delayMinutes with
      | some d => some d
      | none => o.delayMinutes
    delayReason := match dto.delayReason with
      | some r => if r = "" then o.delayReason else some r
      | none => o.delayReason
    upiTransactionId := match dto.upiTransactionId with
      | some u => if u = "" then o.upiTransactionId else some u
      | none => o.upiTransactionId
    updatedAt := now }

/-- OrderStatusRepository.updateStatus: read the current row, rebuild the
timeline, write the row, and return the re-read updated row.  The source
re-reads through findByOrderNumber; the returned record equals what that
re-read yields (proved below as part of the timeline theorem). -/
def updateStatus (store : List OrderRec) (dto : UpdateOrderStatusDTO) (now : Int) :
    List OrderRec × Except OrderStatusErrorCode OrderRec :=
  match findRecByOrderNumber store dto.orderId with
  | none => (store, .error .ORDER_NOT_FOUND)
  | some cur =>
    (store.map (fun o =>
        if decide (o.orderNumber = dto.orderId) then updatedOrderRec o dto now else o),
      .ok (updatedOrderRec cur dto now))

end OrderStatusRepository

-- ============================================================
-- src/services/order-status.service.ts
-- ============================================================

namespace OrderStatusService

/-- validateStatusTransition: AlreadyInStatus when the statuses are equal,
InvalidTransition when the state machine forbids the move, otherwise passes
(`none` models the void return, `some e` models the throw). -/
def validateStatusTransition (currentStatus newStatus : OrderTrackingStatus) :
    Option OrderStatusErrorCode :=
  if currentStatus = newStatus then
    some .ALREADY_IN_STATUS
  else if !(isValidTransition currentStatus newStatus) then
    some .INVALID_TRANSITION
  else
    none

/-- OrderStatusService.updateStatus: look the order up, validate the
transition, and only then delegate the write to the repository.  The
returned store is the post-operation persistent state. -/
def updateStatus (store : List OrderRec) (dto : UpdateOrderStatusDTO) (now : Int) :
    List OrderRec × Except OrderStatusErrorCode OrderRec :=
  match OrderStatusRepository.findRecByOrderNumber store dto.orderId with
  | none => (store, .error .ORDER_NOT_FOUND)
  | some current =>
    match validateStatusTransition current.trackingStatus dto.newStatus with
    | some e => (store, .error e)
    | none => OrderStatusRepository.updateStatus store dto now

end OrderStatusService

-- ============================================================
-- src/types/match.types.ts (statuses as used across the match code)
-- ============================================================

/-- MatchStatus as used by match.service.ts / match.repository.ts. -/
inductive MatchStatus where
  | PENDING_ACCEPTANCE
  | ACCEPTED
  | REJECTED
  | EXPIRED
deriving DecidableEq, Fintype

/-- One row of the `match` table, restricted to the columns the verified
operations read or write. -/
structure MatchRec where
  id : String
  listingId : String
  farmerId : Int
  status : MatchStatus
  expiresAt : Int
  acceptedAt : Option Int
  rejectedAt : Option Int
  orderId : Option String
  rejectionReason : Option String
  updatedAt : Int
deriving DecidableEq

/-- The optional `details` argument of MatchRepository.updateStatus. -/
structure MatchUpdateDetails where
  rejectionReason : Option String
  orderId : Option String
deriving DecidableEq

-- ============================================================
-- src/repositories/match.repository.ts
-- ============================================================

namespace MatchRepository

/-- MatchRepository.findById. -/
def findById (store : List MatchRec) (id : String) : Option MatchRec :=
  store.find? (fun m => decide (m.id = id))

/-- The row produced by MatchRepository.updateStatus for one match: status
and updatedAt always change; ACCEPTED also stamps acceptedAt and copies a
truthy (present, non-empty) orderId; REJECTED also stamps rejectedAt and
copies a truthy rejectionReason; EXPIRED changes nothing else. -/
def applyUpdateStatus (m : MatchRec) (status : MatchStatus)
    (details : Option MatchUpdateDetails) (now : Int) : MatchRec :=
  { m with
    status := status
    updatedAt := now
    acceptedAt := if status = .ACCEPTED then some now else m.acceptedAt
    rejectedAt := if status = .REJECTED then some now else m.rejectedAt
    orderId :=
      if status = .ACCEPTED then
        match details with
        | some d => match d.orderId with
          | some oid => if oid = "" then m.orderId else some oid
          | none => m.orderId
        | none => m.orderId
      else m.orderId
    rejectionReason :=
      if status = .REJECTED then
        match details with
        | some d => match d.rejectionReason with
          | some r => if r = "" then m.rejectionReason else some r
          | none => m.rejectionReason
        | none => m.rejectionReason
      else m.rejectionReason }

/-- MatchRepository.updateStatus: update the row selected by id and return
the updated row (`none` models the Prisma record-not-found failure, which is
unreachable from the service flows below because they have just found the
match in the same store). -/
def updateStatus (store : List MatchRec) (id : String) (status : MatchStatus)
    (details : Option MatchUpdateDetails) (now : Int) : List MatchRec × Option MatchRec :=
  match findById store id with
  | none => (store, none)
  | some m =>
    (store.map (fun x => if decide (x.id = id) then applyUpdateStatus x status details now else x),
      some (applyUpdateStatus m status details now))

/-- MatchRepository.findPendingByFarmerId: pending, not yet expired
(strictly `expiresAt > now`), ordered by ascending expiresAt, then
offset/limit pagination. -/
def findPendingByFarmerId (store : List MatchRec) (now : Int) (farmerId : Int)
    (limit offsetN : Nat) : List MatchRec :=
  ((((store.filter (fun m =>
        decide (m.farmerId = farmerId ∧ m.status = .PENDING_ACCEPTANCE ∧ now < m.expiresAt))).mergeSort
      (fun a b => decide (a.expiresAt ≤ b.expiresAt))).drop offsetN).take limit)

/-- The eligibility predicate of the expiry sweep: still pending and
`expiresAt <= now`. -/
def pendingExpired (now : Int) (m : MatchRec) : Bool :=
  decide (m.status = .PENDING_ACCEPTANCE ∧ m.expiresAt ≤ now)

/-- MatchRepository.findExpiredPendingMatches: pending matches past expiry,
batch-capped at 100 rows. -/
def findExpiredPendingMatches (store : List MatchRec) (now : Int) : List MatchRec :=
  (store.filter (pendingExpired now)).take 100

end MatchRepository

-- ============================================================
-- src/services/match.service.ts
-- ============================================================

/-- The distinct error messages thrown by MatchService. -/
inductive MatchServiceErr where
  | NotFound
  | NoLongerPending
  | Expired
  | NotRejectable
deriving DecidableEq

namespace MatchService

/-- MatchService.acceptMatch.  The source also takes an acceptance flag and
an optional accepted quantity; both are logged only and never affect the
result or the store, so they are omitted here.  `new Date() > expiresAt` is
`expiresAt < now`; the mocked order id is the non-empty string
`ord-` followed by the clock value. -/
def acceptMatch (store : List MatchRec) (now : Int) (matchId : String) :
    List MatchRec × Except MatchServiceErr MatchRec :=
  match MatchRepository.findById store matchId with
  | none => (store, .error .NotFound)
  | some m =>
    if m.status ≠ .PENDING_ACCEPTANCE then
      (store, .error .NoLongerPending)
    else if m.expiresAt < now then
      ((MatchRepository.updateStatus store matchId .EXPIRED none now).1, .error .Expired)
    else
      let mockOrderId := "ord-" ++ toString now
      let r := MatchRepository.updateStatus store matchId .ACCEPTED
        (some { rejectionReason := none, orderId := some mockOrderId }) now
      match r.2 with
      | some m2 => (r.1, .ok m2)
      | none => (r.1, .error .NotFound)

/-- MatchService.rejectMatch: rejectable exactly from PENDING_ACCEPTANCE or
EXPIRED; on success the status becomes REJECTED with the supplied reason
passed to the repository. -/
def rejectMatch (store : List MatchRec) (now : Int) (matchId reason : String) :
    List MatchRec × Except MatchServiceErr MatchRec :=
  match MatchRepository.findById store matchId with
  | none => (store, .error .NotFound)
  | some m =>
    if m.status ≠ .PENDING_ACCEPTANCE ∧ m.status ≠ .EXPIRED then
      (store, .error .NotRejectable)
    else
      let r := MatchRepository.updateStatus store matchId .REJECTED
        (some { rejectionReason := some reason, orderId := none }) now
      match r.2 with
      | some m2 => (r.1, .ok m2)
      | none => (r.1, .error .NotFound)

/-- MatchService.expireMatches: fetch the capped batch of expired pending
matches, transition each one individually to EXPIRED, return the final
store and the count. -/
def expireMatches (store : List MatchRec) (now : Int) : List MatchRec × Nat :=
  (MatchRepository.findExpiredPendingMatches store now).foldl
    (fun acc m => ((MatchRepository.updateStatus acc.1 m.id .EXPIRED none now).1, acc.2 + 1))
    (store, 0)

end MatchService

-- ============================================================
-- Story 3.7 transaction aggregation
-- (services/transaction.service.ts, order-status.repository.ts)
-- ============================================================

/-- One day in milliseconds (1000 * 60 * 60 * 24), the divisor of the
receipt-eligibility computation; calendar-day subtraction (`setDate`) is
modelled as subtraction of whole 24h days. -/
def msPerDay : Int := 86400000

/-- Ninety days in milliseconds, the default transaction window. -/
def ninetyDaysMs : Int := 90 * msPerDay

/-- The `createdAt` bounds object of a Prisma where clause. -/
structure DateBounds where
  gte : Option Int
  lte : Option Int
deriving DecidableEq

namespace OrderStatusRepository

/-- The `createdAt` portion of the where clause built by
OrderStatusRepository.getTransactions (lines 444-458).  The source builds it
by object spreading, so a later spread replaces the whole `createdAt` value:
a supplied toDate discards any gte set by a supplied fromDate, and the
90-day default applies only when both dates are absent. -/
def transactionsWhereCreatedAt (fromDate toDate : Option Int) (now : Int) :
    Option DateBounds :=
  let c1 : Option DateBounds := match fromDate with
    | some f => some { gte := some f, lte := none }
    | none => none
  let c2 : Option DateBounds := match toDate with
    | some t => some { gte := none, lte := some t }
    | none => c1
  if fromDate = none ∧ toDate = none then
    some { gte := some (now - ninetyDaysMs), lte := none }
  else c2

end OrderStatusRepository

namespace TransactionService

/-- The date defaulting of TransactionService.getTransactions (the applied
filter): when neither date is supplied, fromDate defaults to 90 days before
now; otherwise the supplied dates pass through unchanged. -/
def transactionsAppliedDates (fromDate toDate : Option Int) (now : Int) :
    Option Int × Option Int :=
  if fromDate = none ∧ toDate = none then (some (now - ninetyDaysMs), toDate)
  else (fromDate, toDate)

/-- The `createdAt` bounds of the repository query as issued through
TransactionService.getTransactions: service-level defaulting composed with
the repository's where-clause construction. -/
def transactionsEffectiveCreatedAt (fromDate toDate : Option Int) (now : Int) :
    Option DateBounds :=
  let a := transactionsAppliedDates fromDate toDate now
  OrderStatusRepository.transactionsWhereCreatedAt a.1 a.2 now

end TransactionService

/-- The payment block of a transaction detail response, restricted to the
fields the verified properties concern. -/
structure PaymentInfo where
  upiTxnId : String
  paidAt : Option Int
deriving DecidableEq

/-- TransactionDetails, restricted to the fields the verified properties
concern (monetary breakdown and display-only fields omitted). -/
structure TransactionDetails where
  id : String
  timeline : List TimelineEvent
  payment : PaymentInfo
  canDownloadReceipt : Bool
deriving DecidableEq

namespace OrderStatusRepository

/-- OrderStatusRepository.getTransactionDetails (lines 522-615): findFirst
restricted to the requesting farmer's non-deleted PAID/DELIVERED orders;
receipt eligibility is whole days since paidAt (falling back to updatedAt)
at most 90; the stored UPI transaction id is masked to asterisks plus its
last 8 characters only when longer than 8 characters, with an absent id
rendered as the empty string. -/
def maskUpiId (upiId : String) : String :=
  if 8 < upiId.length then "****" ++ upiId.drop (upiId.length - 8) else upiId

/-- The response row getTransactionDetails builds from a visible order:
receipt eligibility is whole days since paidAt (fallback updatedAt) at most
90; the UPI reference is masked. -/
def transactionDetailsOfOrder (order : OrderRec) (now : Int) : TransactionDetails :=
  { id := order.orderNumber
    timeline := order.statusHistory
    payment := { upiTxnId := maskUpiId (order.upiTransactionId.getD "")
                 paidAt := order.paidAt }
    canDownloadReceipt :=
      decide (Int.fdiv (now - order.paidAt.getD order.updatedAt) msPerDay ≤ 90) }

def getTransactionDetails (store : List OrderRec) (orderId : String) (farmerId : Int)
    (now : Int) : Option TransactionDetails :=
  match store.find? (fun o =>
      decide (o.orderNumber = orderId ∧ o.farmerId = farmerId ∧ o.deletedAt = none ∧
        (o.trackingStatus = .PAID ∨ o.trackingStatus = .DELIVERED))) with
  | none => none
  | some order => some (transactionDetailsOfOrder order now)

end OrderStatusRepository

-- ============================================================
-- Concrete sample data used by witnesses and counterexamples
-- ============================================================

/-- A sample order at LISTED with a one-event timeline. -/
def sampleOrder : OrderRec :=
  { orderNumber := "ORD-1"
    farmerId := 7
    trackingStatus := .LISTED
    statusHistory := [{ step := 1, status := .LISTED, label := "Listed", completed := false,
                        active := true, timestamp := some 0, actor := none, note := none }]
    eta := none
    delayMinutes := none
    delayReason := none
    haulerId := none
    haulerName := none
    haulerPhone := none
    haulerVehicle := none
    upiTransactionId := none
    paidAt := none
    deletedAt := none
    updatedAt := 0 }

/-- A DTO moving sample order ORD-1 forward to MATCHED. -/
def sampleDTO : UpdateOrderStatusDTO :=
  { orderId := "ORD-1"
    newStatus := .MATCHED
    actor := "system"
    note := none
    haulerInfo := none
    eta := none
    delayMinutes := none
    delayReason := none
    upiTransactionId := none }

/-- A DTO re-submitting the current LISTED status of ORD-1. -/
def sampleRepeatDTO : UpdateOrderStatusDTO :=
  { sampleDTO with newStatus := .LISTED }

/-- A sample pending match expiring at t = 10. -/
def pendingSampleMatch : MatchRec :=
  { id := "m1"
    listingId := "L1"
    farmerId := 7
    status := .PENDING_ACCEPTANCE
    expiresAt := 10
    acceptedAt := none
    rejectedAt := none
    orderId := none
    rejectionReason := none
    updatedAt := 0 }

/-- A sample PAID order with a UPI transaction id and a payment instant. -/
def paidSampleOrder : OrderRec :=
  { sampleOrder with
    orderNumber := "TXN-1"
    trackingStatus := .PAID
    upiTransactionId := some "UPI123456789"
    paidAt := some 0 }

/-- A store of 101 distinct pending matches, all already expired at t = 0:
one more than the sweep's batch ceiling. -/
def sweepBatchStore : List MatchRec :=
  (List.range 101).map (fun i =>
    { id := toString i
      listingId := "L"
      farmerId := 1
      status := .PENDING_ACCEPTANCE
      expiresAt := 0
      acceptedAt := none
      rejectedAt := none
      orderId := none
      rejectionReason := none
      updatedAt := 0 })

-- ============================================================
-- Helper lemmas
-- ============================================================

/-- Updating every matching element of a list leaves find? pointing at the
updated first match, provided the update preserves the search predicate. -/
theorem find_map_update {α : Type} (p : α → Bool) (f : α → α)
    (hf : ∀ x, p x = true → p (f x) = true) :
    ∀ (l : List α) (x : α), l.find? p = some x →
      (l.map (fun y => if p y then f y else y)).find? p = some (f x) := by
  intro l
  induction l with
  | nil => intro x hx; simp [List.find?] at hx
  | cons a t ih =>
    intro x hx
    by_cases hpa : p a = true
    · rw [List.find?_cons_of_pos _ hpa] at hx
      cases hx
      simp only [List.map_cons, if_pos hpa]
      exact List.find?_cons_of_pos _ (hf a hpa)
    · have hpa2 : p a = false := by revert hpa; cases (p a) <;> simp
      rw [List.find?_cons_of_neg _ (by simp [hpa2])] at hx
      simp only [List.map_cons, if_neg (by simp [hpa2] : ¬ (p a = true))]
      rw [List.find?_cons_of_neg _ (by simp [hpa2])]
      exact ih x hx

/-- Deactivated copies of timeline events contribute no active entries. -/
theorem countP_inactive (l : List TimelineEvent) :
    (l.map (fun e => { e with active := false })).countP (fun e => e.active) = 0 := by
  induction l with
  | nil => rfl
  | cons a t ih => simp [List.countP_cons, ih]

/-- The mocked order identifier is never the empty string. -/
theorem mockOrderId_ne_empty (s : String) : ("ord-" ++ s) ≠ "" := by
  intro h
  have h2 : ("ord-" ++ s).length = 0 := by rw [h]; rfl
  rw [String.length_append] at h2
  have h3 : "ord-".length = 4 := rfl
  omega

/-- The repository's private step table agrees with the domain-level one. -/
theorem getStepNumber_eq_getStatusStep :
    ∀ s, OrderStatusRepository.getStepNumber s = getStatusStep s := by
  decide

-- ============================================================
-- Claim theorems
-- ============================================================

/-- C1: validateStatusTransition fails with ALREADY_IN_STATUS exactly when the
new status equals the current one, succeeds exactly when the new status is the
immediate successor in the 7-stage chain (step new = step current + 1), fails
with INVALID_TRANSITION in every other case, and in particular every
transition attempt out of PAID fails. -/
theorem transition_validation_spec :
    ∀ (currentStatus newStatus : OrderTrackingStatus),
      (OrderStatusService.validateStatusTransition currentStatus newStatus =
          some .ALREADY_IN_STATUS ↔ newStatus = currentStatus) ∧
      (OrderStatusService.validateStatusTransition currentStatus newStatus = none ↔
        getStatusStep newStatus = getStatusStep currentStatus + 1) ∧
      (OrderStatusService.validateStatusTransition currentStatus newStatus =
          some .INVALID_TRANSITION ↔
        (newStatus ≠ currentStatus ∧ getStatusStep newStatus ≠ getStatusStep currentStatus + 1)) ∧
      (currentStatus = .PAID →
        OrderStatusService.validateStatusTransition currentStatus newStatus ≠ none) := by
  decide

/-- Witness for C1: LISTED to MATCHED validates, and the PAID clause applies
at the concrete pair (PAID, LISTED). -/
theorem transition_validation_spec_witness :
    OrderStatusService.validateStatusTransition .LISTED .MATCHED = none ∧
    OrderStatusService.validateStatusTransition .PAID .LISTED ≠ none :=
  ⟨(transition_validation_spec .LISTED .MATCHED).2.1.mpr (by decide),
    (transition_validation_spec .PAID .LISTED).2.2.2 rfl⟩

/-- C6: whenever the order transition operation fails, the persisted store is
left exactly as it was: no timeline event appended, no status change. -/
theorem failed_transition_atomic :
    ∀ (store : List OrderRec) (dto : UpdateOrderStatusDTO) (now : Int)
      (s2 : List OrderRec) (e : OrderStatusErrorCode),
      OrderStatusService.updateStatus store dto now = (s2, Except.error e) → s2 = store := by
  intro store dto now s2 e h
  unfold OrderStatusService.updateStatus at h
  split at h
  · injection h with h1 h2; exact h1.symm
  · split at h
    · injection h with h1 h2; exact h1.symm
    · unfold OrderStatusRepository.updateStatus at h
      split at h
      · injection h with h1 h2; exact h1.symm
      · injection h with h1 h2; cases h2

/-- Witness for C6: re-submitting the current status of the sample order
fails, and the store is returned unchanged. -/
theorem failed_transition_atomic_witness :
    (OrderStatusService.updateStatus [sampleOrder] sampleRepeatDTO 5).1 = [sampleOrder] ∧
    (OrderStatusService.updateStatus [sampleOrder] sampleRepeatDTO 5).2 =
      Except.error .ALREADY_IN_STATUS := by
  constructor
  · exact failed_transition_atomic [sampleOrder] sampleRepeatDTO 5 _ .ALREADY_IN_STATUS
      (by decide)
  · decide

/-- C2: a successful order transition appends exactly one timeline event
(step = the new status's step number, active and completed, stamped with now
and the supplied actor/note), deactivates all previously recorded events, so
exactly one event is active afterwards and the history grows by one; the
updated row is persisted in the store. -/
theorem successful_transition_timeline :
    ∀ (store : List OrderRec) (dto : UpdateOrderStatusDTO) (now : Int)
      (s2 : List OrderRec) (updated : OrderRec),
      OrderStatusService.updateStatus store dto now = (s2, Except.ok updated) →
      ∃ current, OrderStatusRepository.findRecByOrderNumber store dto.orderId = some current ∧
        updated.statusHistory =
          current.statusHistory.map (fun e => { e with active := false }) ++
            [OrderStatusRepository.newTimelineEvent dto now] ∧
        updated.statusHistory.length = current.statusHistory.length + 1 ∧
        updated.statusHistory.countP (fun e => e.active) = 1 ∧
        (OrderStatusRepository.newTimelineEvent dto now).step = getStatusStep dto.newStatus ∧
        (OrderStatusRepository.newTimelineEvent dto now).active = true ∧
        (OrderStatusRepository.newTimelineEvent dto now).completed = true ∧
        (OrderStatusRepository.newTimelineEvent dto now).timestamp = some now ∧
        (OrderStatusRepository.newTimelineEvent dto now).actor = some dto.actor ∧
        (OrderStatusRepository.newTimelineEvent dto now).note = dto.note ∧
        updated.trackingStatus = dto.newStatus ∧
        OrderStatusRepository.findRecByOrderNumber s2 dto.orderId = some updated := by
  intro store dto now s2 updated h
  unfold OrderStatusService.updateStatus at h
  split at h
  · injection h with h1 h2; cases h2
  · next current hfind =>
    split at h
    · injection h with h1 h2; cases h2
    · unfold OrderStatusRepository.updateStatus at h
      rw [hfind] at h
      injection h with h1 h2
      injection h2 with h3
      subst h3
      refine ⟨current, hfind, rfl, ?_, ?_,
        getStepNumber_eq_getStatusStep dto.newStatus, rfl, rfl, rfl, rfl, rfl, rfl, ?_⟩
      · simp [OrderStatusRepository.updatedOrderRec]
      · have hc : (OrderStatusRepository.updatedOrderRec current dto now).statusHistory.countP
            (fun e => e.active) =
            (current.statusHistory.map (fun e => { e with active := false })).countP
              (fun e => e.active) +
            ([OrderStatusRepository.newTimelineEvent dto now]).countP (fun e => e.active) := by
          simp [OrderStatusRepository.updatedOrderRec, List.countP_append]
        rw [hc, countP_inactive]
        simp [List.countP_cons, OrderStatusRepository.newTimelineEvent]
      · rw [← h1]
        unfold OrderStatusRepository.findRecByOrderNumber
        unfold OrderStatusRepository.findRecByOrderNumber at hfind
        exact find_map_update (fun (o : OrderRec) => decide (o.orderNumber = dto.orderId))
          (fun (o : OrderRec) => OrderStatusRepository.updatedOrderRec o dto now)
          (fun x hx => hx) store current hfind

/-- Witness for C2: transitioning the sample order from LISTED to MATCHED
leaves exactly one active event in a two-event history. -/
theorem successful_transition_timeline_witness :
    (OrderStatusRepository.updatedOrderRec sampleOrder sampleDTO 5).statusHistory.countP
        (fun e => e.active) = 1 ∧
    (OrderStatusRepository.updatedOrderRec sampleOrder sampleDTO 5).statusHistory.length = 2 := by
  obtain ⟨cur, hfind, hhist, hlen, hcount, hrest⟩ :=
    successful_transition_timeline [sampleOrder] sampleDTO 5
      (OrderStatusService.updateStatus [sampleOrder] sampleDTO 5).1
      (OrderStatusRepository.updatedOrderRec sampleOrder sampleDTO 5) (by decide)
  have h0 : OrderStatusRepository.findRecByOrderNumber [sampleOrder] sampleDTO.orderId =
      some sampleOrder := by decide
  rw [h0] at hfind
  injection hfind with hcur
  subst hcur
  exact ⟨hcount, hlen.trans (by decide)⟩

/-- The success branch of acceptMatch: a pending match found in the store
and not yet past expiry is updated to ACCEPTED with the mocked order id. -/
theorem acceptMatch_success (store : List MatchRec) (now : Int) (matchId : String)
    (m : MatchRec) (hfind : MatchRepository.findById store matchId = some m)
    (hst : m.status = .PENDING_ACCEPTANCE) (hexp : now ≤ m.expiresAt) :
    (MatchService.acceptMatch store now matchId).2 =
      Except.ok (MatchRepository.applyUpdateStatus m .ACCEPTED
        (some { rejectionReason := none, orderId := some ("ord-" ++ toString now) }) now) := by
  have hnp : ¬ m.status ≠ MatchStatus.PENDING_ACCEPTANCE := by simp [hst]
  have hne : ¬ m.expiresAt < now := not_lt.mpr hexp
  simp [MatchService.acceptMatch, hfind, hnp, hne, MatchRepository.updateStatus]

/-- C3: accepting a match fails with NotFound when absent, with
NoLongerPending when not pending, with Expired when pending but past expiry
(persisting EXPIRED before the error is raised), and otherwise succeeds with
the match ACCEPTED, acceptedAt stamped, and a non-null order id persisted. -/
theorem accept_match_spec :
    ∀ (store : List MatchRec) (now : Int) (matchId : String),
      (MatchRepository.findById store matchId = none →
        MatchService.acceptMatch store now matchId = (store, Except.error .NotFound)) ∧
      (∀ m, MatchRepository.findById store matchId = some m →
        m.status ≠ .PENDING_ACCEPTANCE →
        MatchService.acceptMatch store now matchId = (store, Except.error .NoLongerPending)) ∧
      (∀ m, MatchRepository.findById store matchId = some m →
        m.status = .PENDING_ACCEPTANCE → m.expiresAt < now →
        (MatchService.acceptMatch store now matchId).2 = Except.error .Expired ∧
        ∃ m2, MatchRepository.findById (MatchService.acceptMatch store now matchId).1 matchId =
            some m2 ∧ m2.status = .EXPIRED) ∧
      (∀ m, MatchRepository.findById store matchId = some m →
        m.status = .PENDING_ACCEPTANCE → now ≤ m.expiresAt →
        ∃ m2, (MatchService.acceptMatch store now matchId).2 = Except.ok m2 ∧
          m2.status = .ACCEPTED ∧ m2.acceptedAt = some now ∧
          m2.orderId = some ("ord-" ++ toString now) ∧
          MatchRepository.findById (MatchService.acceptMatch store now matchId).1 matchId =
            some m2) := by
  intro store now matchId
  refine ⟨?_, ?_, ?_, ?_⟩
  · intro hfind
    simp [MatchService.acceptMatch, hfind]
  · intro m hfind hst
    simp [MatchService.acceptMatch, hfind, hst]
  · intro m hfind hst hexp
    have hnp : ¬ m.status ≠ MatchStatus.PENDING_ACCEPTANCE := by simp [hst]
    constructor
    · simp [MatchService.acceptMatch, hfind, hnp, hexp]
    · refine ⟨MatchRepository.applyUpdateStatus m .EXPIRED none now, ?_, rfl⟩
      have h1 : (MatchService.acceptMatch store now matchId).1 =
          (MatchRepository.updateStatus store matchId .EXPIRED none now).1 := by
        simp [MatchService.acceptMatch, hfind, hnp, hexp]
      rw [h1]
      have h2 : (MatchRepository.updateStatus store matchId .EXPIRED none now).1 =
          store.map (fun x =>
            if decide (x.id = matchId) then MatchRepository.applyUpdateStatus x .EXPIRED none now
            else x) := by
        simp [MatchRepository.updateStatus, hfind]
      rw [h2]
      unfold MatchRepository.findById
      unfold MatchRepository.findById at hfind
      exact find_map_update (fun (x : MatchRec) => decide (x.id = matchId))
        (fun (x : MatchRec) => MatchRepository.applyUpdateStatus x .EXPIRED none now)
        (fun x hx => hx) store m hfind
  · intro m hfind hst hexp
    have hnp : ¬ m.status ≠ MatchStatus.PENDING_ACCEPTANCE := by simp [hst]
    have hne : ¬ m.expiresAt < now := not_lt.mpr hexp
    refine ⟨MatchRepository.applyUpdateStatus m .ACCEPTED
      (some { rejectionReason := none, orderId := some ("ord-" ++ toString now) }) now,
      ?_, rfl, ?_, ?_, ?_⟩
    · exact acceptMatch_success store now matchId m hfind hst hexp
    · simp [MatchRepository.applyUpdateStatus]
    · simp [MatchRepository.applyUpdateStatus]
      intro hc
      exact absurd hc (mockOrderId_ne_empty (toString now))
    · have h1 : (MatchService.acceptMatch store now matchId).1 =
          store.map (fun x =>
            if decide (x.id = matchId) then MatchRepository.applyUpdateStatus x .ACCEPTED
              (some { rejectionReason := none, orderId := some ("ord-" ++ toString now) }) now
            else x) := by
        simp [MatchService.acceptMatch, hfind, hnp, hne, MatchRepository.updateStatus]
      rw [h1]
      unfold MatchRepository.findById
      unfold MatchRepository.findById at hfind
      exact find_map_update (fun (x : MatchRec) => decide (x.id = matchId))
        (fun (x : MatchRec) => MatchRepository.applyUpdateStatus x .ACCEPTED
          (some { rejectionReason := none, orderId := some ("ord-" ++ toString now) }) now)
        (fun x hx => hx) store m hfind

/-- Witness for C3: accepting the pending sample match at t = 5 persists an
ACCEPTED match carrying order id ord-5. -/
theorem accept_match_spec_witness :
    (MatchRepository.findById (MatchService.acceptMatch [pendingSampleMatch] 5 "m1").1
        "m1").map (fun m => (m.status, m.orderId)) =
      some (MatchStatus.ACCEPTED, some "ord-5") := by
  obtain ⟨m2, hok, hstat, hacc, hoid, hfind⟩ :=
    (accept_match_spec [pendingSampleMatch] 5 "m1").2.2.2 pendingSampleMatch (by decide) rfl
      (by decide)
  rw [hfind]
  simp only [Option.map_some']
  rw [hstat, hoid]
  rfl

/-- C5 (amended): rejecting a match fails with NotFound when absent, with
NotRejectable exactly when the status is neither PENDING_ACCEPTANCE nor
EXPIRED, and on success transitions to REJECTED, stamps rejectedAt, and
records the supplied reason when it is non-empty (an empty-string reason is
skipped by the repository's truthiness guard, leaving the stored reason
unchanged). -/
theorem reject_match_spec :
    ∀ (store : List MatchRec) (now : Int) (matchId reason : String),
      (MatchRepository.findById store matchId = none →
        MatchService.rejectMatch store now matchId reason = (store, Except.error .NotFound)) ∧
      (∀ m, MatchRepository.findById store matchId = some m →
        m.status ≠ .PENDING_ACCEPTANCE → m.status ≠ .EXPIRED →
        MatchService.rejectMatch store now matchId reason =
          (store, Except.error .NotRejectable)) ∧
      (∀ m, MatchRepository.findById store matchId = some m →
        (m.status = .PENDING_ACCEPTANCE ∨ m.status = .EXPIRED) →
        ∃ m2, (MatchService.rejectMatch store now matchId reason).2 = Except.ok m2 ∧
          m2.status = .REJECTED ∧ m2.rejectedAt = some now ∧
          m2.rejectionReason = (if reason = "" then m.rejectionReason else some reason) ∧
          MatchRepository.findById (MatchService.rejectMatch store now matchId reason).1
            matchId = some m2) := by
  intro store now matchId reason
  refine ⟨?_, ?_, ?_⟩
  · intro hfind
    simp [MatchService.rejectMatch, hfind]
  · intro m hfind h1 h2
    simp [MatchService.rejectMatch, hfind, h1, h2]
  · intro m hfind hor
    have hcond : ¬ (m.status ≠ MatchStatus.PENDING_ACCEPTANCE ∧
        m.status ≠ MatchStatus.EXPIRED) := by
      rcases hor with h | h <;> simp [h]
    refine ⟨MatchRepository.applyUpdateStatus m .REJECTED
      (some { rejectionReason := some reason, orderId := none }) now, ?_, rfl, ?_, ?_, ?_⟩
    · simp [MatchService.rejectMatch, hfind, hcond, MatchRepository.updateStatus]
    · simp [MatchRepository.applyUpdateStatus]
    · simp [MatchRepository.applyUpdateStatus]
    · have h1 : (MatchService.rejectMatch store now matchId reason).1 =
          store.map (fun x =>
            if decide (x.id = matchId) then MatchRepository.applyUpdateStatus x .REJECTED
              (some { rejectionReason := some reason, orderId := none }) now
            else x) := by
        simp [MatchService.rejectMatch, hfind, hcond, MatchRepository.updateStatus]
      rw [h1]
      unfold MatchRepository.findById
      unfold MatchRepository.findById at hfind
      exact find_map_update (fun (x : MatchRec) => decide (x.id = matchId))
        (fun (x : MatchRec) => MatchRepository.applyUpdateStatus x .REJECTED
          (some { rejectionReason := some reason, orderId := none }) now)
        (fun x hx => hx) store m hfind

/-- Witness for C5: rejecting the pending sample match with a non-empty
reason persists a REJECTED match with that reason recorded. -/
theorem reject_match_spec_witness :
    (MatchRepository.findById (MatchService.rejectMatch [pendingSampleMatch] 5 "m1"
        "low price").1 "m1").map (fun m => (m.status, m.rejectionReason)) =
      some (MatchStatus.REJECTED, some "low price") := by
  obtain ⟨m2, hok, hstat, hrej, hres, hfind⟩ :=
    (reject_match_spec [pendingSampleMatch] 5 "m1" "low price").2.2 pendingSampleMatch
      (by decide) (Or.inl rfl)
  rw [hfind]
  simp only [Option.map_some']
  rw [hstat, hres]
  rfl

/-- Counterexample for C5 as stated: rejecting a pending match with the
empty-string reason succeeds, but the supplied reason is not recorded (the
stored rejectionReason stays none, not some empty string). -/
theorem reject_empty_reason_cex :
    (MatchService.rejectMatch [pendingSampleMatch] 5 "m1" "").2.toOption.map
        (fun m => (m.status, m.rejectionReason)) =
      some (MatchStatus.REJECTED, (none : Option String)) := by
  decide

/-- A match just transitioned to EXPIRED is no longer sweep-eligible. -/
theorem pendingExpired_after_expire (now t : Int) (x : MatchRec)
    (d : Option MatchUpdateDetails) :
    MatchRepository.pendingExpired now (MatchRepository.applyUpdateStatus x .EXPIRED d t) =
      false := by
  simp [MatchRepository.pendingExpired, MatchRepository.applyUpdateStatus]

/-- The sweep's fold over (store, count) splits into a fold on the store and
the length of the batch. -/
theorem foldl_expire_pair (now : Int) :
    ∀ (sel : List MatchRec) (s : List MatchRec) (n : Nat),
      sel.foldl (fun acc m =>
          ((MatchRepository.updateStatus acc.1 m.id .EXPIRED none now).1, acc.2 + 1)) (s, n) =
        (sel.foldl (fun s2 m => (MatchRepository.updateStatus s2 m.id .EXPIRED none now).1) s,
          n + sel.length) := by
  intro sel
  induction sel with
  | nil => intro s n; simp
  | cons a t ih =>
    intro s n
    simp only [List.foldl_cons]
    rw [ih]
    have harith : n + 1 + t.length = n + (t.length + 1) := by omega
    rw [harith]
    rfl

/-- After sweeping a batch that covers every eligible match of the store (by
id), no eligible match remains. -/
theorem expire_store_filter_empty (now : Int) :
    ∀ (sel store : List MatchRec),
      (∀ x ∈ store, MatchRepository.pendingExpired now x = true → ∃ m ∈ sel, m.id = x.id) →
      ((sel.foldl (fun s2 m => (MatchRepository.updateStatus s2 m.id .EXPIRED none now).1)
          store).filter (MatchRepository.pendingExpired now)) = [] := by
  intro sel
  induction sel with
  | nil =>
    intro store hpre
    simp only [List.foldl_nil]
    rw [List.filter_eq_nil_iff]
    intro a ha hpa
    obtain ⟨m, hm, _⟩ := hpre a ha hpa
    exact absurd hm (List.not_mem_nil m)
  | cons a t ih =>
    intro store hpre
    simp only [List.foldl_cons]
    apply ih
    intro x hx hpx
    unfold MatchRepository.updateStatus at hx
    rcases hcase : MatchRepository.findById store a.id with _ | m0
    · rw [hcase] at hx
      simp only at hx
      have hnone : ∀ y ∈ store, ¬ (decide (y.id = a.id) = true) := by
        intro y hy
        exact List.find?_eq_none.mp hcase y hy
      obtain ⟨m, hm, hmid⟩ := hpre x hx hpx
      rcases List.mem_cons.mp hm with hma | hmt
      · subst hma
        exact absurd (by simp [hmid]) (hnone x hx)
      · exact ⟨m, hmt, hmid⟩
    · rw [hcase] at hx
      simp only at hx
      obtain ⟨x0, hx0, hx0eq⟩ := List.mem_map.mp hx
      by_cases hid : decide (x0.id = a.id) = true
      · rw [if_pos hid] at hx0eq
        rw [← hx0eq] at hpx
        rw [pendingExpired_after_expire] at hpx
        cases hpx
      · rw [if_neg hid] at hx0eq
        subst hx0eq
        obtain ⟨m, hm, hmid⟩ := hpre x0 hx0 hpx
        rcases List.mem_cons.mp hm with hma | hmt
        · subst hma
          exact absurd (by simp [hmid]) hid
        · exact ⟨m, hmt, hmid⟩

/-- C4 (amended): the expiry sweep selects pending matches past expiry,
returns the number transitioned (at most 100 per invocation), performs no
writes and returns 0 when nothing is eligible, and a second immediate run
returns 0 with no writes whenever at most 100 matches were eligible at the
first run (with more than 100 eligible, the batch ceiling leaves a remainder
for the next invocation). -/
theorem expire_sweep_spec :
    ∀ (store : List MatchRec) (now : Int),
      (∀ m ∈ MatchRepository.findExpiredPendingMatches store now,
        m.status = .PENDING_ACCEPTANCE ∧ m.expiresAt ≤ now) ∧
      (MatchService.expireMatches store now).2 =
        (MatchRepository.findExpiredPendingMatches store now).length ∧
      (MatchService.expireMatches store now).2 ≤ 100 ∧
      (store.filter (MatchRepository.pendingExpired now) = [] →
        MatchService.expireMatches store now = (store, 0)) ∧
      ((store.filter (MatchRepository.pendingExpired now)).length ≤ 100 →
        MatchService.expireMatches (MatchService.expireMatches store now).1 now =
          ((MatchService.expireMatches store now).1, 0)) := by
  intro store now
  have hunfold : MatchService.expireMatches store now =
      ((MatchRepository.findExpiredPendingMatches store now).foldl
          (fun s2 m => (MatchRepository.updateStatus s2 m.id .EXPIRED none now).1) store,
        (MatchRepository.findExpiredPendingMatches store now).length) := by
    unfold MatchService.expireMatches
    rw [foldl_expire_pair]
    simp
  refine ⟨?_, ?_, ?_, ?_, ?_⟩
  · intro m hm
    have hmem : m ∈ store.filter (MatchRepository.pendingExpired now) :=
      List.mem_of_mem_take hm
    exact of_decide_eq_true (List.mem_filter.mp hmem).2
  · rw [hunfold]
  · rw [hunfold]
    show (MatchRepository.findExpiredPendingMatches store now).length ≤ 100
    unfold MatchRepository.findExpiredPendingMatches
    exact List.length_take_le _ _
  · intro hnil
    rw [hunfold]
    unfold MatchRepository.findExpiredPendingMatches
    rw [hnil]
    simp
  · intro hlen
    have hsel : MatchRepository.findExpiredPendingMatches store now =
        store.filter (MatchRepository.pendingExpired now) := by
      unfold MatchRepository.findExpiredPendingMatches
      exact List.take_of_length_le hlen
    have hempty : ((MatchService.expireMatches store now).1).filter
        (MatchRepository.pendingExpired now) = [] := by
      rw [hunfold]
      show ((MatchRepository.findExpiredPendingMatches store now).foldl
          (fun s2 m => (MatchRepository.updateStatus s2 m.id .EXPIRED none now).1)
          store).filter (MatchRepository.pendingExpired now) = []
      rw [hsel]
      apply expire_store_filter_empty
      intro x hx hpx
      exact ⟨x, List.mem_filter.mpr ⟨hx, hpx⟩, rfl⟩
    have h2 : MatchRepository.findExpiredPendingMatches
        (MatchService.expireMatches store now).1 now = [] := by
      unfold MatchRepository.findExpiredPendingMatches
      rw [hempty]
      rfl
    generalize (MatchService.expireMatches store now).1 = s1 at h2 ⊢
    unfold MatchService.expireMatches
    rw [h2]
    rfl

/-- Witness for C4: with a single eligible match the first sweep expires it
and an immediate second sweep returns 0 and writes nothing. -/
theorem expire_sweep_spec_witness :
    MatchService.expireMatches
        (MatchService.expireMatches [{ pendingSampleMatch with expiresAt := 3 }] 5).1 5 =
      ((MatchService.expireMatches [{ pendingSampleMatch with expiresAt := 3 }] 5).1, 0) :=
  (expire_sweep_spec [{ pendingSampleMatch with expiresAt := 3 }] 5).2.2.2.2 (by decide)

set_option maxRecDepth 100000 in
/-- Counterexample for C4 as stated: with 101 matches already eligible, the
first sweep transitions only the 100-match batch, so an immediate second
sweep (with no newly expirable matches in between) returns 1, not 0. -/
theorem expire_sweep_twice_cex :
    (MatchService.expireMatches (MatchService.expireMatches sweepBatchStore 0).1 0).2 = 1 := by
  decide

/-- C9: at the exact expiry instant (expiresAt = now) a pending match is
still acceptable (the accept guard is strict), yet the expiry sweep already
selects it (its guard is inclusive) and the pending listing already excludes
it (its guard is strict the other way). -/
theorem expiry_boundary_spec :
    ∀ (m : MatchRec) (now : Int),
      m.status = .PENDING_ACCEPTANCE → m.expiresAt = now →
      (MatchService.acceptMatch [m] now m.id).2.isOk = true ∧
      MatchRepository.findExpiredPendingMatches [m] now = [m] ∧
      MatchRepository.findPendingByFarmerId [m] now m.farmerId 10 0 = [] := by
  intro m now hst hexp
  have hfind : MatchRepository.findById [m] m.id = some m := by
    simp [MatchRepository.findById, List.find?]
  refine ⟨?_, ?_, ?_⟩
  · rw [acceptMatch_success [m] now m.id m hfind hst (by omega)]
    rfl
  · unfold MatchRepository.findExpiredPendingMatches
    simp [MatchRepository.pendingExpired, hst, hexp]
  · unfold MatchRepository.findPendingByFarmerId
    have hnil : List.filter (fun mm =>
        decide (mm.farmerId = m.farmerId ∧ mm.status = .PENDING_ACCEPTANCE ∧
          now < mm.expiresAt)) [m] = [] := by
      simp [hexp]
    rw [hnil]
    simp [List.mergeSort_nil]

/-- Witness for C9: a pending match expiring exactly at t = 7, probed at
t = 7, is acceptable, sweep-eligible, and absent from the pending listing. -/
theorem expiry_boundary_spec_witness :
    (MatchService.acceptMatch [{ pendingSampleMatch with expiresAt := 7 }] 7 "m1").2.isOk =
      true ∧
    MatchRepository.findExpiredPendingMatches [{ pendingSampleMatch with expiresAt := 7 }] 7 =
      [{ pendingSampleMatch with expiresAt := 7 }] ∧
    MatchRepository.findPendingByFarmerId [{ pendingSampleMatch with expiresAt := 7 }] 7 7
      10 0 = [] :=
  expiry_boundary_spec { pendingSampleMatch with expiresAt := 7 } 7 rfl rfl

/-- The transaction-detail row built for a singleton store whose order is
visible (owned, not deleted, PAID or DELIVERED). -/
theorem getTransactionDetails_singleton (o : OrderRec) (now : Int)
    (hdel : o.deletedAt = none)
    (htr : o.trackingStatus = .PAID ∨ o.trackingStatus = .DELIVERED) :
    OrderStatusRepository.getTransactionDetails [o] o.orderNumber o.farmerId now =
      some (OrderStatusRepository.transactionDetailsOfOrder o now) := by
  unfold OrderStatusRepository.getTransactionDetails
  have hfound : [o].find? (fun x =>
      decide (x.orderNumber = o.orderNumber ∧ x.farmerId = o.farmerId ∧ x.deletedAt = none ∧
        (x.trackingStatus = .PAID ∨ x.trackingStatus = .DELIVERED))) = some o := by
    simp [List.find?, hdel, htr]
  rw [hfound]

/-- C7: the transaction detail's receipt eligibility is true exactly when the
whole number of days elapsed since paidAt (or updatedAt when paidAt is
absent) is at most 90; the 90-day boundary is inclusive, and at 91 days it
is false. -/
theorem receipt_window_inclusive :
    ∀ (o : OrderRec) (now : Int),
      o.deletedAt = none →
      (o.trackingStatus = .PAID ∨ o.trackingStatus = .DELIVERED) →
      ∃ d, OrderStatusRepository.getTransactionDetails [o] o.orderNumber o.farmerId now =
          some d ∧
        (d.canDownloadReceipt = true ↔
          Int.fdiv (now - o.paidAt.getD o.updatedAt) msPerDay ≤ 90) ∧
        (now = o.paidAt.getD o.updatedAt + 90 * msPerDay → d.canDownloadReceipt = true) ∧
        (now = o.paidAt.getD o.updatedAt + 91 * msPerDay → d.canDownloadReceipt = false) := by
  intro o now hdel htr
  refine ⟨_, getTransactionDetails_singleton o now hdel htr, ?_, ?_, ?_⟩
  · simp [OrderStatusRepository.transactionDetailsOfOrder]
  · intro h
    subst h
    apply decide_eq_true
    have harith : o.paidAt.getD o.updatedAt + 90 * msPerDay - o.paidAt.getD o.updatedAt =
        90 * msPerDay := by omega
    have h90 : Int.fdiv (90 * msPerDay) msPerDay = 90 := by decide
    rw [harith, h90]
  · intro h
    subst h
    apply decide_eq_false
    have harith : o.paidAt.getD o.updatedAt + 91 * msPerDay - o.paidAt.getD o.updatedAt =
        91 * msPerDay := by omega
    have h91 : Int.fdiv (91 * msPerDay) msPerDay = 91 := by decide
    rw [harith, h91]
    decide

/-- Witness for C7: the sample PAID order paid at t = 0, probed exactly 90
days later, can still download its receipt. -/
theorem receipt_window_inclusive_witness :
    (OrderStatusRepository.getTransactionDetails [paidSampleOrder]
        paidSampleOrder.orderNumber paidSampleOrder.farmerId (90 * msPerDay)).map
      (fun d => d.canDownloadReceipt) = some true := by
  obtain ⟨d, hd, hiff, h90, h91⟩ :=
    receipt_window_inclusive paidSampleOrder (90 * msPerDay) rfl (Or.inl rfl)
  rw [hd]
  simp only [Option.map_some']
  rw [h90 (by decide)]

/-- C10: the transaction detail's UPI reference is masked to asterisks plus
the last 8 characters only when the stored id is longer than 8 characters; an
id of at most 8 characters is returned unmasked and an absent id becomes the
empty string. -/
theorem upi_masking_spec :
    ∀ (o : OrderRec) (now : Int),
      o.deletedAt = none →
      (o.trackingStatus = .PAID ∨ o.trackingStatus = .DELIVERED) →
      ∃ d, OrderStatusRepository.getTransactionDetails [o] o.orderNumber o.farmerId now =
          some d ∧
        (o.upiTransactionId = none → d.payment.upiTxnId = "") ∧
        (∀ s, o.upiTransactionId = some s → s.length ≤ 8 → d.payment.upiTxnId = s) ∧
        (∀ s, o.upiTransactionId = some s → 8 < s.length →
          d.payment.upiTxnId = "****" ++ s.drop (s.length - 8)) := by
  intro o now hdel htr
  refine ⟨_, getTransactionDetails_singleton o now hdel htr, ?_, ?_, ?_⟩
  · intro h
    simp [OrderStatusRepository.transactionDetailsOfOrder, OrderStatusRepository.maskUpiId, h]
  · intro s hs hlen
    simp [OrderStatusRepository.transactionDetailsOfOrder, OrderStatusRepository.maskUpiId, hs,
      Nat.not_lt.mpr hlen]
  · intro s hs hlen
    simp [OrderStatusRepository.transactionDetailsOfOrder, OrderStatusRepository.maskUpiId, hs,
      hlen]

/-- Witness for C10: the sample 12-character UPI id is masked down to its
last 8 characters behind four asterisks. -/
theorem upi_masking_spec_witness :
    (OrderStatusRepository.getTransactionDetails [paidSampleOrder]
        paidSampleOrder.orderNumber paidSampleOrder.farmerId 0).map
      (fun d => d.payment.upiTxnId) = some "****23456789" := by
  obtain ⟨d, hd, hnone, hsmall, hbig⟩ := upi_masking_spec paidSampleOrder 0 rfl (Or.inl rfl)
  rw [hd]
  simp only [Option.map_some']
  rw [hbig "UPI123456789" rfl (by decide)]
  rfl

/-- C8: the createdAt lower bound of the transactions query defaults to
exactly 90 days before now when neither date is supplied; when either date
is supplied no default is applied (a supplied fromDate passes through, and a
supplied toDate yields only an upper bound because the where clause's later
spread replaces the whole createdAt value). -/
theorem default_date_window_spec :
    ∀ (fromDate toDate : Option Int) (now : Int),
      TransactionService.transactionsEffectiveCreatedAt fromDate toDate now =
        match fromDate, toDate with
        | none, none => some { gte := some (now - ninetyDaysMs), lte := none }
        | some f, none => some { gte := some f, lte := none }
        | _, some t => some { gte := none, lte := some t } := by
  intro f t now
  cases f <;> cases t <;> rfl

/-- Witness for C8: with no dates supplied at t = 0 the effective lower
bound is minus ninety days. -/
theorem default_date_window_spec_witness :
    TransactionService.transactionsEffectiveCreatedAt none none 0 =
      some { gte := some (0 - ninetyDaysMs), lte := none } :=
  default_date_window_spec none none 0
